import Mathlib

/-!
# Shallow embedding of `bot.py` (transaction tracking and notification bot)

This file embeds the core pipeline of `src/bot.py`:

* `detect_transaction_type` — the transaction classifier (lines 110-119);
* `track_address` — the per-address body of the poll loop inside
  `track_transactions` (lines 66-82): snapshot of `LAST_BLOCK`, block filter,
  watermark assignment, enqueueing of notifications;
* `fetch_transactions` — the error envelope of the fetch helper (lines 42-49):
  a JSON decode failure is converted to an empty result, while a
  connection-level failure propagates as an exception;
* `track_addresses` / `track_cycle` — one iteration of the `while True` loop of
  `track_transactions` (lines 61-89), over an environment assigning each
  address its fetch outcome;
* `send_notifications` — the dispatcher pass (lines 91-98), recorded as an
  event trace;
* `cycle_events` — the ordered persist/dispatch actions of one loop iteration
  (lines 84-86);
* `notify_msg` / `sent_msg` — message formatting and truncation in
  `notify_transaction` (lines 100-108);
* `seed_last_block` — the watermark seeding performed by `add_address`
  (lines 138-143) and `set_initial_last_block` (lines 51-59).

Python dictionaries (`LAST_BLOCK`, `WATCHED_ADDRESSES`) are embedded as
insertion-ordered association lists; Python string methods used by the code
(`in` for substring, `.lower()`) are embedded over `List Char` / `String`.
-/

namespace Bot

/-- A raw transaction record as the code reads it from the explorer response:
optional fields model `tx.get(...)` access; `blockNumber` is the already
`int(...)`-converted block number, `None` when the key is absent. -/
structure Tx where
  hash : String
  blockNumber : Option Nat
  fromAddr : Option String
  toAddr : Option String
  tokenSymbol : Option String
  input : Option String
  value : Option String
  deriving Repr, DecidableEq

/-- `int(tx.get("blockNumber", 0))` (line 71). -/
def txBlock (tx : Tx) : Nat := tx.blockNumber.getD 0

/-- `pat` occurs as a contiguous run inside `s` (checked at every suffix). -/
def listContains (pat : List Char) : List Char → Bool
  | [] => pat.isPrefixOf []
  | s@(_ :: rest) => pat.isPrefixOf s || listContains pat rest

/-- Python's substring test `pat in s`. -/
def strContains (s pat : String) : Bool := listContains pat.toList s.toList

/-- `detect_transaction_type` (lines 110-119): first-match classification.
The `value` field is never inspected; there is no native-transfer branch. -/
def detect_transaction_type (tx : Tx) (address : String) : String :=
  let sender := (tx.fromAddr.getD "").toLower
  match tx.tokenSymbol with
  | some sym =>
      if strContains sym "NFT" then
        if sender == address.toLower then "🎨 NFT Sale" else "🛒 NFT Purchase"
      else "🔁 Token Transfer"
  | none =>
      match tx.input with
      | some inp => if inp ≠ "" ∧ inp ≠ "0x" then "🔄 Swap" else "🔍 Unknown"
      | none => "🔍 Unknown"

/-- The `LAST_BLOCK` dictionary: insertion-ordered address → watermark map. -/
abbrev BlockMap := List (String × Nat)

/-- `m.get(k, d)` on a Python dict. -/
def lookupD (m : BlockMap) (k : String) (d : Nat) : Nat :=
  match m.find? (fun p => p.1 == k) with
  | some p => p.2
  | none => d

/-- `m[k] = v` on a Python dict: update in place, else append. -/
def setKey (m : BlockMap) (k : String) (v : Nat) : BlockMap :=
  match m with
  | [] => [(k, v)]
  | (k2, v2) :: rest => if k2 == k then (k, v) :: rest else (k2, v2) :: setKey rest k v

/-- One entry of `WATCHED_ADDRESSES`: address key with its
`{"name": ..., "chat_id": ...}` payload; `name` is optional because the code
reads it with `data.get("name", "Unknown")` (line 81). -/
structure Watched where
  address : String
  name : Option String
  chat_id : Int
  deriving Repr, DecidableEq

/-- One item put on the notification queue (line 81):
`(tx, address, data.get("name", "Unknown"), data["chat_id"])`. -/
structure Notif where
  tx : Tx
  address : String
  name : String
  chat_id : Int
  deriving Repr, DecidableEq

/-- The body of the inner `for tx in transactions["result"]` loop
(lines 70-82): skip a transaction whose block is at or below the snapshot
`last_block`; otherwise overwrite `LAST_BLOCK[address]` with its block number
and append it to the notification queue. -/
def acceptStep (w : Watched) (last_block : Nat) (acc : BlockMap × List Notif)
    (tx : Tx) : BlockMap × List Notif :=
  let block_number := txBlock tx
  if block_number ≤ last_block then acc
  else (setKey acc.1 w.address block_number,
        acc.2 ++ [⟨tx, w.address, w.name.getD "Unknown", w.chat_id⟩])

/-- Lines 68-82 of `track_transactions`, for one address: if the fetched
`result` list is empty the address is skipped entirely; otherwise the
watermark is read once (`last_block = LAST_BLOCK.get(address, 0)`) and each
transaction is compared against that snapshot via `acceptStep`. -/
def track_address (lastMap : BlockMap) (w : Watched) (txs : List Tx) :
    BlockMap × List Notif :=
  if txs.isEmpty then (lastMap, [])
  else txs.foldl (acceptStep w (lookupD lastMap w.address 0)) (lastMap, [])

/-- Outcome of the HTTP fetch for one address, as `fetch_transactions`
(lines 42-49) distinguishes them: a parsed body whose `result` field is a
transaction list; a JSON decode failure (the only exception the function
catches); or a connection-level failure, which the function does not catch. -/
inductive FetchOutcome where
  | ok (result : List Tx)
  | malformed
  | networkError
  deriving Repr, DecidableEq

/-- `fetch_transactions` (lines 42-49): a decode failure returns
`{"result": []}`; a connection failure raises out of the function. -/
def fetch_transactions : FetchOutcome → Except Unit (List Tx)
  | .ok txs => .ok txs
  | .malformed => .ok []
  | .networkError => .error ()

/-- The `for address, data in WATCHED_ADDRESSES.items()` loop of one cycle
(lines 66-82): addresses processed in insertion order; an uncaught fetch
exception aborts the whole loop (and with it the `track_transactions` task). -/
def track_addresses (fetch : String → FetchOutcome) :
    List Watched → BlockMap → Except Unit (BlockMap × List Notif)
  | [], lastMap => .ok (lastMap, [])
  | w :: rest, lastMap => do
    let txs ← fetch_transactions (fetch w.address)
    let (m2, ns) := track_address lastMap w txs
    let (m3, ns2) ← track_addresses fetch rest m2
    return (m3, ns ++ ns2)

/-- Result of one iteration of the `while True` loop: updated `LAST_BLOCK`,
the queued notifications in order, and whether `save_json` ran
(`new_tx_count > 0`, line 84). -/
structure CycleResult where
  lastMap : BlockMap
  notifs : List Notif
  persisted : Bool
  deriving Repr, DecidableEq

/-- One iteration of `track_transactions` (lines 61-89), minus the sleep. -/
def track_cycle (fetch : String → FetchOutcome) (watched : List Watched)
    (lastMap : BlockMap) : Except Unit CycleResult := do
  let (m, ns) ← track_addresses fetch watched lastMap
  return ⟨m, ns, ns.length > 0⟩

/-- What one delivery attempt of `bot.send_message` comes back with: success,
a rate-limit signal carrying a mandated wait, or any other error. -/
inductive DeliverOutcome where
  | ok
  | retryable (waitSeconds : Nat)
  | permanentError
  deriving Repr, DecidableEq

/-- Observable dispatcher/persistence actions, in order of occurrence. -/
inductive Ev where
  | persist
  | deliverAttempt (n : Notif)
  | success (n : Notif)
  | pacingSleep
  | rateWait (w : Nat)
  | drop (n : Notif)
  deriving Repr, DecidableEq

/-- `send_notifications` (lines 91-98) as an event trace: each item is
attempted once; on success `asyncio.sleep(2)` runs; any exception — rate
limit included — is logged and the item dropped, and the loop moves on.
No wait is performed on a failure and no second attempt is made. -/
def send_notifications (deliver : Notif → DeliverOutcome) :
    List Notif → List Ev
  | [] => []
  | n :: rest =>
    match deliver n with
    | .ok =>
        Ev.deliverAttempt n :: Ev.success n :: Ev.pacingSleep ::
          send_notifications deliver rest
    | .retryable _ =>
        Ev.deliverAttempt n :: Ev.drop n :: send_notifications deliver rest
    | .permanentError =>
        Ev.deliverAttempt n :: Ev.drop n :: send_notifications deliver rest

/-- Lines 84-86: when the cycle found new transactions, `save_json` runs and
then the dispatcher pass; otherwise neither happens. -/
def cycle_events (deliver : Notif → DeliverOutcome) (notifs : List Notif) :
    List Ev :=
  if notifs.length > 0 then Ev.persist :: send_notifications deliver notifs
  else []

/-- The explorer link embedded in the message (line 105). -/
def explorer_link (tx : Tx) : List Char :=
  ("https://soneium.blockscout.com/tx/" ++ tx.hash).toList

/-- The formatted message of `notify_transaction` (lines 102-105), before
truncation, as a character list (Python `len` counts code points, as
`List.length` does here). -/
def notify_msg (tx : Tx) (address name : String) : List Char :=
  "🔔 <b>Transaksi Baru</b> 🔔\n👤 <b>".toList ++ name.toList
    ++ "</b>\n🔹 Type: ".toList
    ++ (detect_transaction_type tx address).toList
    ++ "\n🔗 <a href='https://soneium.blockscout.com/tx/".toList ++ tx.hash.toList
    ++ "'>Lihat di Block Explorer</a>".toList

/-- Lines 106-107: `if len(msg) > 4096: msg = msg[:4090] + "..."`. -/
def sent_msg (tx : Tx) (address name : String) : List Char :=
  let msg := notify_msg tx address name
  if msg.length > 4096 then msg.take 4090 ++ "...".toList else msg

/-- The seeding step shared by `add_address` (lines 139-143) and
`set_initial_last_block` (lines 54-58): on a non-empty fetched `result` list,
set the address's watermark to the maximum fetched block number; on an empty
list, record nothing. -/
def seed_last_block (lastMap : BlockMap) (address : String)
    (fetched : List Tx) : BlockMap :=
  if fetched.isEmpty then lastMap
  else setKey lastMap address ((fetched.map txBlock).foldl max 0)


/-! ## Analysis definitions and concrete fixtures -/

/-- The notification record that line 81 builds for transaction `tx` of
watched entry `w`. -/
def mkNotif (w : Watched) (tx : Tx) : Notif :=
  ⟨tx, w.address, w.name.getD "Unknown", w.chat_id⟩

/-- The transactions of a fetched list that pass the watermark test against
the snapshot `L` read at the start of the per-address loop. -/
def acceptedTxs (L : Nat) (txs : List Tx) : List Tx :=
  txs.filter (fun tx => L < txBlock tx)

/-- Modelled from the spec: the eligibility predicate of §3 — a transaction
is eligible iff its block number exceeds `lastBlock`, or equals `lastBlock`
while its hash is not yet in the address's `seenHashes` set.  The code has no
seen-hash set; this definition exists to be compared with `track_address`. -/
def spec_eligible (lastBlock : Nat) (seenHashes : List String) (tx : Tx) : Bool :=
  lastBlock < txBlock tx
    || (txBlock tx == lastBlock && !(seenHashes.contains tx.hash))

/-- Semantic categories of the spec's classification table (§4.4). -/
inductive Category where
  | NFTSale
  | NFTPurchase
  | TokenTransfer
  | Swap
  | NativeTransfer
  | Unknown
  deriving Repr, DecidableEq

/-- Decimal reading of a value string, for the spec-side classifier. -/
def decimalNat (s : String) : Nat :=
  s.toList.foldl (fun n c => n * 10 + (c.toNat - Char.toNat (Char.ofNat 48))) 0

/-- Modelled from the spec: the five-rule first-match classification of §4.4,
including the native-transfer rule (positive native-asset value) that the
code does not implement; for comparison with `detect_transaction_type`. -/
def spec_classify (tx : Tx) (address : String) : Category :=
  match tx.tokenSymbol with
  | some sym =>
      if strContains sym "NFT" then
        if (tx.fromAddr.getD "").toLower == address.toLower then .NFTSale
        else .NFTPurchase
      else .TokenTransfer
  | none =>
      if (tx.input.getD "") ≠ "" ∧ (tx.input.getD "") ≠ "0x" then .Swap
      else if 0 < decimalNat (tx.value.getD "0") then .NativeTransfer
      else .Unknown

/-- The four-rule classification actually implemented: the spec's table with
the native-transfer rule removed, so a plain value-bearing transaction falls
through to `Unknown`. -/
def amended_classify (tx : Tx) (address : String) : Category :=
  match tx.tokenSymbol with
  | some sym =>
      if strContains sym "NFT" then
        if (tx.fromAddr.getD "").toLower == address.toLower then .NFTSale
        else .NFTPurchase
      else .TokenTransfer
  | none =>
      if (tx.input.getD "") ≠ "" ∧ (tx.input.getD "") ≠ "0x" then .Swap
      else .Unknown

/-- The message label the code uses for each category; `NativeTransfer` is
mapped to a label that `detect_transaction_type` never emits. -/
def categoryLabel : Category → String
  | .NFTSale => "🎨 NFT Sale"
  | .NFTPurchase => "🛒 NFT Purchase"
  | .TokenTransfer => "🔁 Token Transfer"
  | .Swap => "🔄 Swap"
  | .NativeTransfer => "💸 Native Transfer"
  | .Unknown => "🔍 Unknown"

/-- A bare transaction fixture carrying only a hash and a block number. -/
def txAt (h : String) (b : Nat) : Tx := ⟨h, some b, none, none, none, none, none⟩

/-- A concrete watched entry. -/
def wAlice : Watched := ⟨"0xabc", some "Alice", 7⟩

/-- A transaction with no token symbol, zero-input sentinel `"0x"` and native
value `"1000"` — the spec table's native-transfer row. -/
def txNative : Tx :=
  ⟨"0xh9", some 1, some "0xsender", some "0xreceiver", none, some "0x", some "1000"⟩

/-- A bare transaction with a recognizable hash, for the formatting claims. -/
def txDead : Tx := ⟨"0xdeadbeef", some 1, none, none, none, none, none⟩

/-- A 4200-character display name, long enough to push the formatted message
past the 4096-character transport limit. -/
def bigName : String := String.mk (List.replicate 4200 'a')

/-- A concrete pending notification. -/
def n0 : Notif := ⟨txAt "0xh0" 1, "0xabc", "Alice", 7⟩

/-- A transport whose every delivery succeeds. -/
def deliverOk : Notif → DeliverOutcome := fun _ => .ok

/-- A transport whose every delivery fails with a rate-limit signal mandating
a 5-second wait. -/
def deliverRateLimited : Notif → DeliverOutcome := fun _ => .retryable 5

/-- A concrete watched entry A. -/
def wA : Watched := ⟨"0xaaa", some "A", 1⟩

/-- A concrete watched entry B. -/
def wB : Watched := ⟨"0xbbb", some "B", 2⟩

/-- A fetch environment where address A's request fails at network level and
every other address returns one block-7 transaction. -/
def fetchNetErrA : String → FetchOutcome := fun a =>
  if a == "0xaaa" then .networkError else .ok [txAt "0xb1" 7]

/-- A fetch environment where address A's response body fails JSON decoding
and every other address returns one block-7 transaction. -/
def fetchMalformedA : String → FetchOutcome := fun a =>
  if a == "0xaaa" then .malformed else .ok [txAt "0xb1" 7]

end Bot


namespace Bot

/-! ## Helper lemmas -/

theorem lookupD_nil (k : String) (d : Nat) : lookupD [] k d = d := rfl

theorem lookupD_cons (k2 : String) (v2 : Nat) (rest : BlockMap) (k : String)
    (d : Nat) :
    lookupD ((k2, v2) :: rest) k d = if k2 == k then v2 else lookupD rest k d := by
  by_cases h : k2 == k <;> simp [lookupD, List.find?_cons, h]

theorem lookupD_setKey (m : BlockMap) (k : String) (v d : Nat) :
    lookupD (setKey m k v) k d = v := by
  induction m with
  | nil => simp [setKey, lookupD_cons]
  | cons p rest ih =>
      obtain ⟨k2, v2⟩ := p
      by_cases h : k2 == k
      · simp [setKey, h, lookupD_cons]
      · simp [setKey, h, lookupD_cons, ih]

theorem lookupD_setKey_ne (m : BlockMap) (k a : String) (v d : Nat)
    (h : a ≠ k) :
    lookupD (setKey m k v) a d = lookupD m a d := by
  have hk : (k == a) = false := by simpa using fun e => h e.symm
  induction m with
  | nil => simp [setKey, lookupD_cons, hk]
  | cons p rest ih =>
      obtain ⟨k2, v2⟩ := p
      by_cases h2 : k2 == k
      · have : (k2 == a) = false := by
          have : k2 = k := by simpa using h2
          subst this
          exact hk
        simp [setKey, h2, lookupD_cons, hk, this]
      · by_cases h3 : k2 == a <;> simp [setKey, h2, lookupD_cons, h3, ih]

theorem lookupD_foldl_setKey (A : String) (d : Nat) (bs : List Tx) :
    ∀ m : BlockMap,
      lookupD (bs.foldl (fun mm tx => setKey mm A (txBlock tx)) m) A d =
        (bs.map txBlock).getLastD (lookupD m A d) := by
  induction bs with
  | nil => intro m; rfl
  | cons tx rest ih =>
      intro m
      rw [List.foldl_cons, List.map_cons, List.getLastD_cons, ih, lookupD_setKey]

theorem lookupD_foldl_setKey_ne (A a : String) (d : Nat) (bs : List Tx)
    (h : a ≠ A) :
    ∀ m : BlockMap,
      lookupD (bs.foldl (fun mm tx => setKey mm A (txBlock tx)) m) a d =
        lookupD m a d := by
  induction bs with
  | nil => intro m; rfl
  | cons tx rest ih =>
      intro m
      rw [List.foldl_cons, ih, lookupD_setKey_ne _ _ _ _ _ h]

theorem foldl_acceptStep (w : Watched) (L : Nat) (txs : List Tx) :
    ∀ (m0 : BlockMap) (ns0 : List Notif),
      txs.foldl (acceptStep w L) (m0, ns0) =
        ((acceptedTxs L txs).foldl
            (fun mm tx => setKey mm w.address (txBlock tx)) m0,
         ns0 ++ (acceptedTxs L txs).map (mkNotif w)) := by
  induction txs with
  | nil => intro m0 ns0; simp [acceptedTxs]
  | cons tx rest ih =>
      intro m0 ns0
      by_cases h : txBlock tx ≤ L
      · have h2 : ¬ (L < txBlock tx) := by omega
        simp [acceptStep, h, acceptedTxs, List.filter_cons, h2, ih]
      · have h2 : L < txBlock tx := by omega
        simp [acceptStep, h, acceptedTxs, List.filter_cons, h2, ih, mkNotif]

theorem track_address_nil (m : BlockMap) (w : Watched) :
    track_address m w [] = (m, []) := rfl

theorem track_address_eq (m : BlockMap) (w : Watched) (txs : List Tx)
    (h : txs ≠ []) :
    track_address m w txs =
      ((acceptedTxs (lookupD m w.address 0) txs).foldl
          (fun mm tx => setKey mm w.address (txBlock tx)) m,
       (acceptedTxs (lookupD m w.address 0) txs).map (mkNotif w)) := by
  unfold track_address
  rw [if_neg (by simpa using h)]
  simpa using foldl_acceptStep w (lookupD m w.address 0) txs m []

theorem le_foldl_max (l : List Nat) : ∀ a : Nat, a ≤ l.foldl max a := by
  induction l with
  | nil => intro a; exact Nat.le_refl a
  | cons x xs ih =>
      intro a
      exact Nat.le_trans (Nat.le_max_left a x) (ih (max a x))

theorem mem_le_foldl_max (l : List Nat) :
    ∀ a : Nat, ∀ b ∈ l, b ≤ l.foldl max a := by
  induction l with
  | nil => intro a b hb; simp at hb
  | cons x xs ih =>
      intro a b hb
      rcases List.mem_cons.mp hb with hb | hb
      · subst hb
        exact Nat.le_trans (Nat.le_max_right a b) (le_foldl_max xs (max a b))
      · exact ih (max a x) b hb

end Bot

namespace Bot

/-- The accepted transactions' blocks stay sorted when the fetched list is
sorted: filtering preserves sortedness. -/
theorem sorted_accepted (L : Nat) (txs : List Tx)
    (hs : List.Sorted (· ≤ ·) (txs.map txBlock)) :
    List.Sorted (· ≤ ·) ((acceptedTxs L txs).map txBlock) := by
  have hsub : List.Sublist ((acceptedTxs L txs).map txBlock) (txs.map txBlock) :=
    List.Sublist.map txBlock (List.filter_sublist txs)
  exact List.Pairwise.sublist hsub hs

/-- C1 (counterexample): with watermark 5 and an empty seen-set, the spec's
eligibility predicate accepts a fresh-hash transaction at block 5, but the
code's per-address pass emits no notification for it: the code has no
seen-hash set and a block equal to the watermark is always skipped. -/
theorem eligibility_seen_hashes_counterexample :
    spec_eligible 5 [] (txAt "0xh1" 5) = true
    ∧ (track_address [("0xabc", 5)] wAlice [txAt "0xh1" 5]).2 = [] := by
  exact ⟨rfl, rfl⟩

/-- C1 (amended): a transaction is eligible iff its block number strictly
exceeds the watermark snapshot taken at the start of the address's pass
(there is no seen-hash set, and a block equal to the watermark is never
eligible); two distinct hashes at one block strictly above the watermark both
produce notifications, and re-processing the same two afterwards produces
zero further notifications. -/
theorem eligibility_strict_watermark (m : BlockMap) (w : Watched)
    (txs : List Tx) (hne : txs ≠ []) (tx1 tx2 : Tx)
    (hb : txBlock tx1 = txBlock tx2)
    (hgt : lookupD m w.address 0 < txBlock tx1) :
    (track_address m w txs).2 =
        (txs.filter (fun tx => lookupD m w.address 0 < txBlock tx)).map (mkNotif w)
    ∧ (track_address m w [tx1, tx2]).2 = [mkNotif w tx1, mkNotif w tx2]
    ∧ (track_address (track_address m w [tx1, tx2]).1 w [tx1, tx2]).2 = [] := by
  have hgt2 : lookupD m w.address 0 < txBlock tx2 := hb ▸ hgt
  have hACC : acceptedTxs (lookupD m w.address 0) [tx1, tx2] = [tx1, tx2] := by
    simp [acceptedTxs, List.filter_cons, hgt, hgt2]
  refine ⟨?_, ?_, ?_⟩
  · rw [track_address_eq m w txs hne]
    simp [acceptedTxs]
  · rw [track_address_eq m w [tx1, tx2] (by simp), hACC]
    simp
  · have h1 : (track_address m w [tx1, tx2]).1 =
        [tx1, tx2].foldl (fun mm tx => setKey mm w.address (txBlock tx)) m := by
      rw [track_address_eq m w [tx1, tx2] (by simp), hACC]
    have hlk : lookupD (track_address m w [tx1, tx2]).1 w.address 0 = txBlock tx2 := by
      rw [h1, lookupD_foldl_setKey]
      simp [List.getLastD_cons]
    rw [track_address_eq _ w [tx1, tx2] (by simp), hlk]
    have he : txBlock tx2 = txBlock tx1 := hb.symm
    have : acceptedTxs (txBlock tx2) [tx1, tx2] = [] := by
      simp [acceptedTxs, List.filter_cons, he]
    rw [this]
    simp

/-- C1 (witness): the amended theorem at a concrete input — two fresh hashes
at block 3 above watermark 0. -/
theorem eligibility_strict_watermark_witness :
    ([txAt "0xh1" 3] : List Tx) ≠ []
    ∧ txBlock (txAt "0xh1" 3) = txBlock (txAt "0xh2" 3)
    ∧ lookupD [] wAlice.address 0 < txBlock (txAt "0xh1" 3)
    ∧ ((track_address [] wAlice [txAt "0xh1" 3]).2 =
        ([txAt "0xh1" 3].filter
            (fun tx => lookupD [] wAlice.address 0 < txBlock tx)).map (mkNotif wAlice)
      ∧ (track_address [] wAlice [txAt "0xh1" 3, txAt "0xh2" 3]).2 =
          [mkNotif wAlice (txAt "0xh1" 3), mkNotif wAlice (txAt "0xh2" 3)]
      ∧ (track_address (track_address [] wAlice [txAt "0xh1" 3, txAt "0xh2" 3]).1
            wAlice [txAt "0xh1" 3, txAt "0xh2" 3]).2 = []) :=
  ⟨by simp, rfl, by decide,
    eligibility_strict_watermark [] wAlice [txAt "0xh1" 3] (by simp)
      (txAt "0xh1" 3) (txAt "0xh2" 3) rfl (by decide)⟩

/-- C3 (counterexample): processing the unsorted fetched list with blocks
[5, 7, 6] from watermark 0 leaves `lastBlock` at 6 even though block 7 was
accepted (and notified) earlier in the same cycle: the watermark is assigned,
not advanced with `max`, so it is not monotone across acceptance steps. -/
theorem watermark_not_monotone_counterexample :
    lookupD (track_address [] wAlice
        [txAt "0xa" 5, txAt "0xb" 7, txAt "0xc" 6]).1 wAlice.address 0 = 6
    ∧ 7 ∈ ((track_address [] wAlice
        [txAt "0xa" 5, txAt "0xb" 7, txAt "0xc" 6]).2.map (fun n => txBlock n.tx))
    ∧ (6 : Nat) < 7 := by
  refine ⟨rfl, by decide, by decide⟩

/-- C3 (amended): accepting a transaction assigns its block number to
`lastBlock` directly (no `max`), so after the pass the watermark equals the
block of the last accepted transaction in list order; the sequence of
watermark values across acceptance steps is non-decreasing provided the
fetched list is sorted ascending by block. -/
theorem watermark_follows_list_order (m : BlockMap) (w : Watched)
    (txs : List Tx) (hne : txs ≠ [])
    (hs : List.Sorted (· ≤ ·) (txs.map txBlock)) :
    lookupD (track_address m w txs).1 w.address 0 =
      ((acceptedTxs (lookupD m w.address 0) txs).map txBlock).getLastD
        (lookupD m w.address 0)
    ∧ List.Sorted (· ≤ ·)
        (lookupD m w.address 0 ::
          (acceptedTxs (lookupD m w.address 0) txs).map txBlock) := by
  constructor
  · rw [track_address_eq m w txs hne]
    exact lookupD_foldl_setKey w.address 0 _ m
  · rw [List.sorted_cons]
    constructor
    · intro b hb
      obtain ⟨tx, htx, rfl⟩ := List.mem_map.mp hb
      have hmem := List.mem_filter.mp htx
      have := hmem.2
      simp only [decide_eq_true_eq] at this
      omega
    · exact sorted_accepted _ txs hs

/-- C3 (witness): the amended theorem at the sorted concrete list with blocks
[5, 7] from watermark 0. -/
theorem watermark_follows_list_order_witness :
    ([txAt "0xa" 5, txAt "0xb" 7] : List Tx) ≠ []
    ∧ List.Sorted (· ≤ ·) ([txAt "0xa" 5, txAt "0xb" 7].map txBlock)
    ∧ (lookupD (track_address [] wAlice [txAt "0xa" 5, txAt "0xb" 7]).1
          wAlice.address 0 =
        ((acceptedTxs (lookupD [] wAlice.address 0)
            [txAt "0xa" 5, txAt "0xb" 7]).map txBlock).getLastD
          (lookupD [] wAlice.address 0)
      ∧ List.Sorted (· ≤ ·)
          (lookupD [] wAlice.address 0 ::
            (acceptedTxs (lookupD [] wAlice.address 0)
              [txAt "0xa" 5, txAt "0xb" 7]).map txBlock)) :=
  ⟨by simp, by decide,
    watermark_follows_list_order [] wAlice [txAt "0xa" 5, txAt "0xb" 7]
      (by simp) (by decide)⟩

/-- C4 (counterexample): the unsorted fetched list with blocks [5, 7, 6]
produces the notification sequence [5, 7, 6] — the cycle does not sort
before filtering and the produced sequence is not non-decreasing. -/
theorem unsorted_notifications_counterexample :
    ((track_address [] wAlice
        [txAt "0xa" 5, txAt "0xb" 7, txAt "0xc" 6]).2.map (fun n => txBlock n.tx))
      = [5, 7, 6]
    ∧ ¬ List.Sorted (· ≤ ·) ([5, 7, 6] : List Nat) := by
  exact ⟨by decide, by decide⟩

/-- C4 (amended): notifications follow the fetched list order without any
sorting; the per-address notification sequence is non-decreasing in block
number whenever the fetched list itself is ascending by block. -/
theorem notifications_sorted_of_sorted_fetch (m : BlockMap) (w : Watched)
    (txs : List Tx) (hs : List.Sorted (· ≤ ·) (txs.map txBlock)) :
    List.Sorted (· ≤ ·)
      ((track_address m w txs).2.map (fun n => txBlock n.tx)) := by
  rcases eq_or_ne txs [] with rfl | hne
  · simp [track_address_nil]
  · rw [track_address_eq m w txs hne]
    have hmm : ((acceptedTxs (lookupD m w.address 0) txs).map
          (mkNotif w)).map (fun n => txBlock n.tx) =
        (acceptedTxs (lookupD m w.address 0) txs).map txBlock := by
      simp [mkNotif]
    simpa [hmm] using sorted_accepted (lookupD m w.address 0) txs hs

/-- C4 (witness): the amended theorem at the sorted concrete list with blocks
[5, 7]. -/
theorem notifications_sorted_of_sorted_fetch_witness :
    List.Sorted (· ≤ ·) ([txAt "0xa" 5, txAt "0xb" 7].map txBlock)
    ∧ List.Sorted (· ≤ ·)
        ((track_address [] wAlice [txAt "0xa" 5, txAt "0xb" 7]).2.map
          (fun n => txBlock n.tx)) :=
  ⟨by decide,
    notifications_sorted_of_sorted_fetch [] wAlice [txAt "0xa" 5, txAt "0xb" 7]
      (by decide)⟩

/-- C8: when the one-shot seeding fetch returns a non-empty list, the
watermark is seeded to the highest fetched block, and a later fetch whose
transactions all sit at or below that block yields zero notifications and
leaves the progress map unchanged. -/
theorem seed_prevents_replay (m : BlockMap) (w : Watched)
    (fetched txs : List Tx) (hne : fetched ≠ [])
    (hold : ∀ tx ∈ txs, txBlock tx ≤ (fetched.map txBlock).foldl max 0) :
    lookupD (seed_last_block m w.address fetched) w.address 0 =
        (fetched.map txBlock).foldl max 0
    ∧ (∀ tx ∈ fetched, txBlock tx ≤ (fetched.map txBlock).foldl max 0)
    ∧ track_address (seed_last_block m w.address fetched) w txs =
        (seed_last_block m w.address fetched, []) := by
  have hseed : seed_last_block m w.address fetched =
      setKey m w.address ((fetched.map txBlock).foldl max 0) := by
    unfold seed_last_block
    rw [if_neg (by simpa using hne)]
  have hlk : lookupD (seed_last_block m w.address fetched) w.address 0 =
      (fetched.map txBlock).foldl max 0 := by rw [hseed, lookupD_setKey]
  refine ⟨hlk, ?_, ?_⟩
  · intro tx htx
    exact mem_le_foldl_max _ 0 _ (List.mem_map_of_mem txBlock htx)
  · rcases eq_or_ne txs [] with rfl | hne2
    · exact track_address_nil _ _
    · rw [track_address_eq _ w txs hne2, hlk]
      have hacc : acceptedTxs ((fetched.map txBlock).foldl max 0) txs = [] := by
        rw [acceptedTxs, List.filter_eq_nil_iff]
        intro tx htx
        have := hold tx htx
        simp only [decide_eq_true_eq]
        omega
      rw [hacc]
      simp

/-- C8 (witness): seed from a fetch with one block-9 transaction; a later
fetch at blocks 9 and 3 yields nothing. -/
theorem seed_prevents_replay_witness :
    ([txAt "0xs" 9] : List Tx) ≠ []
    ∧ (∀ tx ∈ ([txAt "0xb" 9, txAt "0xc" 3] : List Tx),
        txBlock tx ≤ (([txAt "0xs" 9] : List Tx).map txBlock).foldl max 0)
    ∧ (lookupD (seed_last_block [] wAlice.address [txAt "0xs" 9]) wAlice.address 0 =
        (([txAt "0xs" 9] : List Tx).map txBlock).foldl max 0
      ∧ (∀ tx ∈ ([txAt "0xs" 9] : List Tx),
          txBlock tx ≤ (([txAt "0xs" 9] : List Tx).map txBlock).foldl max 0)
      ∧ track_address (seed_last_block [] wAlice.address [txAt "0xs" 9]) wAlice
            [txAt "0xb" 9, txAt "0xc" 3] =
          (seed_last_block [] wAlice.address [txAt "0xs" 9], [])) :=
  ⟨by simp, by decide,
    seed_prevents_replay [] wAlice [txAt "0xs" 9] [txAt "0xb" 9, txAt "0xc" 3]
      (by simp) (by decide)⟩

/-- C10: an address watched but absent from the progress map falls back to
watermark 0 (and an empty seeding fetch records no entry), so every fetched
transaction with a positive block number is enqueued — the whole fetched
history is replayed. -/
theorem missing_progress_entry_full_replay (m : BlockMap) (w : Watched)
    (txs : List Tx) (hfind : m.find? (fun p => p.1 == w.address) = none)
    (hne : txs ≠ []) :
    seed_last_block m w.address [] = m
    ∧ (track_address m w txs).2 =
        (txs.filter (fun tx => 0 < txBlock tx)).map (mkNotif w) := by
  have hlk : lookupD m w.address 0 = 0 := by
    unfold lookupD
    rw [hfind]
  refine ⟨rfl, ?_⟩
  rw [track_address_eq m w txs hne, hlk]
  rfl

/-- C10 (witness): an unseeded address replays a fetched list with blocks
[5, 0]: the block-5 transaction is enqueued, the block-0 one is not. -/
theorem missing_progress_entry_full_replay_witness :
    ([] : BlockMap).find? (fun p => p.1 == wAlice.address) = none
    ∧ ([txAt "0xa" 5, txAt "0xz" 0] : List Tx) ≠ []
    ∧ (seed_last_block [] wAlice.address [] = []
      ∧ (track_address [] wAlice [txAt "0xa" 5, txAt "0xz" 0]).2 =
          (([txAt "0xa" 5, txAt "0xz" 0] : List Tx).filter
              (fun tx => 0 < txBlock tx)).map (mkNotif wAlice)) :=
  ⟨rfl, by simp,
    missing_progress_entry_full_replay [] wAlice [txAt "0xa" 5, txAt "0xz" 0]
      rfl (by simp)⟩

end Bot

namespace Bot

theorem ok_bind {ε α β : Type} (a : α) (f : α → Except ε β) :
    (Except.ok a : Except ε α) >>= f = f a := rfl

theorem pure_eq_ok {ε α : Type} (a : α) :
    (pure a : Except ε α) = Except.ok a := rfl

theorem lookupD_track_address_ne (m : BlockMap) (w : Watched) (txs : List Tx)
    (a : String) (d : Nat) (h : a ≠ w.address) :
    lookupD (track_address m w txs).1 a d = lookupD m a d := by
  rcases eq_or_ne txs [] with rfl | hne
  · rfl
  · rw [track_address_eq m w txs hne]
    exact lookupD_foldl_setKey_ne w.address a d _ h m

/-- C2 (counterexample): address A's fetch fails at network level while
address B's would succeed with a new block-7 transaction; the exception is
not caught, so the whole cycle aborts — B yields no notifications and the
tracking task dies. -/
theorem network_error_aborts_cycle :
    track_cycle fetchNetErrA [wA, wB] [] = Except.error () := rfl

/-- C2 (amended): only a malformed-payload (JSON decode) fetch error is
swallowed as "no new transactions" for that address alone — the cycle
completes, the failed address's watermark is untouched, and another
address's notifications still go out; a network-level failure instead aborts
the entire cycle. -/
theorem malformed_fetch_isolated (fetch : String → FetchOutcome)
    (w1 w2 : Watched) (m : BlockMap) (txs : List Tx)
    (hA : fetch w1.address = .malformed)
    (hB : fetch w2.address = .ok txs)
    (hne : w1.address ≠ w2.address) :
    ∃ r : CycleResult,
      track_cycle fetch [w1, w2] m = .ok r
      ∧ r.notifs = (track_address m w2 txs).2
      ∧ lookupD r.lastMap w1.address 0 = lookupD m w1.address 0 := by
  have h1 : track_addresses fetch [w1, w2] m =
      .ok ((track_address m w2 txs).1, (track_address m w2 txs).2) := by
    simp only [track_addresses, fetch_transactions, hA, hB, ok_bind, pure_eq_ok,
      track_address_nil]
    simp
  refine ⟨⟨(track_address m w2 txs).1, (track_address m w2 txs).2,
      decide (0 < (track_address m w2 txs).2.length)⟩, ?_, rfl, ?_⟩
  · simp [track_cycle, h1]
  · exact lookupD_track_address_ne m w2 txs w1.address 0 hne

/-- C2 (witness): the amended theorem at the concrete malformed-for-A
environment with one block-7 transaction for B. -/
theorem malformed_fetch_isolated_witness :
    fetchMalformedA wA.address = FetchOutcome.malformed
    ∧ fetchMalformedA wB.address = FetchOutcome.ok [txAt "0xb1" 7]
    ∧ wA.address ≠ wB.address
    ∧ (∃ r : CycleResult,
        track_cycle fetchMalformedA [wA, wB] [] = .ok r
        ∧ r.notifs = (track_address [] wB [txAt "0xb1" 7]).2
        ∧ lookupD r.lastMap wA.address 0 = lookupD [] wA.address 0) :=
  ⟨rfl, rfl, by decide,
    malformed_fetch_isolated fetchMalformedA wA wB [] [txAt "0xb1" 7]
      rfl rfl (by decide)⟩

/-- C5 (counterexample): the spec's five-rule classifier maps the record
with no token symbol, input `"0x"` and value `"1000"` to `NativeTransfer`,
but `detect_transaction_type` classifies it `"🔍 Unknown"`: the code has no
native-transfer branch and never reads `value`. -/
theorem native_transfer_missing_counterexample :
    spec_classify txNative "0xwatched" = Category.NativeTransfer
    ∧ detect_transaction_type txNative "0xwatched" = "🔍 Unknown" :=
  ⟨by decide, by decide⟩

/-- C5 (amended): classification follows a four-rule first-match order — NFT
token symbol yields NFTSale when the sender equals the watched address
case-insensitively and NFTPurchase otherwise, any other present token symbol
yields TokenTransfer, non-empty input other than "0x" yields Swap, and
everything else — a positive native value included — yields Unknown; no
input is ever classified NativeTransfer. -/
theorem classification_four_rules (tx : Tx) (address : String) :
    detect_transaction_type tx address = categoryLabel (amended_classify tx address)
    ∧ amended_classify tx address ≠ Category.NativeTransfer := by
  constructor
  · unfold detect_transaction_type amended_classify
    cases htok : tx.tokenSymbol with
    | some sym =>
        by_cases hnft : strContains sym "NFT"
        · by_cases hsend : ((tx.fromAddr.getD "").toLower == address.toLower)
            <;> simp [hnft, hsend, categoryLabel]
        · simp [hnft, categoryLabel]
    | none =>
        cases hinp : tx.input with
        | some inp =>
            by_cases hswap : inp ≠ "" ∧ inp ≠ "0x"
            · simp [hswap, categoryLabel]
            · simp [hswap, categoryLabel]
        | none => simp [categoryLabel]
  · unfold amended_classify
    cases htok : tx.tokenSymbol with
    | some sym =>
        by_cases hnft : strContains sym "NFT"
        · by_cases hsend : ((tx.fromAddr.getD "").toLower == address.toLower)
            <;> simp [hnft, hsend]
        · simp [hnft]
    | none =>
        by_cases hswap : (tx.input.getD "") ≠ "" ∧ (tx.input.getD "") ≠ "0x"
          <;> simp [hswap]

/-- C6 (counterexample): a delivery failing with a rate-limit signal
mandating a 5-second wait gets exactly one attempt, no wait and no retry —
the item is dropped immediately, where the claim mandates one ~5s wait and a
second attempt before dropping. -/
theorem rate_limit_no_retry_counterexample :
    send_notifications deliverRateLimited [n0] = [Ev.deliverAttempt n0, Ev.drop n0]
    ∧ (send_notifications deliverRateLimited [n0]).count (Ev.deliverAttempt n0) = 1
    ∧ (send_notifications deliverRateLimited [n0]).count (Ev.rateWait 5) = 0 := by
  refine ⟨rfl, by decide, by decide⟩

/-- C6 (amended): every item gets exactly one delivery attempt; on any
failure — rate-limit signal included — the dispatcher performs no wait and
no retry, drops the item, and moves on; the pass is a per-item homomorphism,
so one item's failure cannot affect the others. -/
theorem delivery_drop_no_retry (deliver : Notif → DeliverOutcome)
    (q1 q2 : List Notif) :
    send_notifications deliver (q1 ++ q2) =
        send_notifications deliver q1 ++ send_notifications deliver q2
    ∧ (∀ w, Ev.rateWait w ∉ send_notifications deliver q1)
    ∧ (∀ n, send_notifications deliver [n] =
        Ev.deliverAttempt n ::
          (match deliver n with
           | .ok => [Ev.success n, Ev.pacingSleep]
           | .retryable _ => [Ev.drop n]
           | .permanentError => [Ev.drop n])) := by
  refine ⟨?_, ?_, ?_⟩
  · induction q1 with
    | nil => rfl
    | cons n rest ih =>
        cases h : deliver n <;> simp [send_notifications, h, ih]
  · intro w
    induction q1 with
    | nil => simp [send_notifications]
    | cons n rest ih =>
        cases h : deliver n <;> simp [send_notifications, h] <;> exact ih
  · intro n
    cases h : deliver n <;> simp [send_notifications, h]

/-- C9 (counterexample): a cycle with one new transaction runs `save_json`
first and only then the dispatcher pass: in the event trace the persist
action precedes the first delivery attempt, where the claim demands
persistence never happen before the dispatcher pass begins. -/
theorem persist_before_dispatch_counterexample :
    cycle_events deliverOk [n0] =
        [Ev.persist, Ev.deliverAttempt n0, Ev.success n0, Ev.pacingSleep]
    ∧ (cycle_events deliverOk [n0]).head? = some Ev.persist :=
  ⟨rfl, rfl⟩

theorem persist_not_mem_send (deliver : Notif → DeliverOutcome)
    (ns : List Notif) : Ev.persist ∉ send_notifications deliver ns := by
  induction ns with
  | nil => simp [send_notifications]
  | cons n rest ih => cases h : deliver n <;> simp [send_notifications, h, ih]

/-- C9 (amended): progress state is persisted exactly when the cycle
produced at least one new transaction, and the persist action happens
immediately BEFORE the dispatcher pass — it is the head of the cycle's event
trace, and never occurs among the dispatch events. -/
theorem persist_only_with_new_tx_before_dispatch
    (deliver : Notif → DeliverOutcome) (ns : List Notif) :
    (ns.length = 0 → cycle_events deliver ns = [])
    ∧ (0 < ns.length →
        cycle_events deliver ns = Ev.persist :: send_notifications deliver ns
        ∧ Ev.persist ∉ send_notifications deliver ns) := by
  constructor
  · intro h
    cases ns with
    | nil => rfl
    | cons n rest => simp at h
  · intro h
    refine ⟨?_, persist_not_mem_send deliver ns⟩
    unfold cycle_events
    rw [if_pos h]

/-- C9 (witness): the amended theorem at a one-item queue with a succeeding
transport. -/
theorem persist_only_with_new_tx_before_dispatch_witness :
    0 < ([n0] : List Notif).length
    ∧ (cycle_events deliverOk [n0] = Ev.persist :: send_notifications deliverOk [n0]
      ∧ Ev.persist ∉ send_notifications deliverOk [n0]) :=
  ⟨by decide,
    (persist_only_with_new_tx_before_dispatch deliverOk [n0]).2 (by decide)⟩

end Bot

namespace Bot

theorem listContains_head_mem (c : Char) (cs l : List Char)
    (h : listContains (c :: cs) l = true) : c ∈ l := by
  induction l with
  | nil => simp [listContains, List.isPrefixOf] at h
  | cons x rest ih =>
      rw [listContains] at h
      cases Bool.or_eq_true_iff.mp h with
      | inl hp =>
          simp [List.isPrefixOf] at hp
          exact hp.1 ▸ List.mem_cons_self x rest
      | inr hr => exact List.mem_cons_of_mem x (ih hr)

theorem not_contains_of_head_not_mem (c : Char) (cs l : List Char)
    (h : c ∉ l) : listContains (c :: cs) l = false := by
  cases hc : listContains (c :: cs) l
  · rfl
  · exact absurd (listContains_head_mem c cs l hc) h

/-- The oversize formatted message decomposed into banner, 4200-character
name, and tail (type label, link and anchor text). -/
theorem bigMsg_decomp :
    notify_msg txDead "0xabc" bigName =
      "🔔 <b>Transaksi Baru</b> 🔔\n👤 <b>".toList
        ++ (List.replicate 4200 'a'
            ++ ("</b>\n🔹 Type: ".toList ++ "🔍 Unknown".toList
                ++ "\n🔗 <a href='https://soneium.blockscout.com/tx/".toList
                ++ "0xdeadbeef".toList
                ++ "'>Lihat di Block Explorer</a>".toList)) := by
  have hd : detect_transaction_type txDead "0xabc" = "🔍 Unknown" := rfl
  have hb : bigName.toList = List.replicate 4200 'a' := rfl
  have hh : txDead.hash = "0xdeadbeef" := rfl
  simp only [notify_msg, hd, hb, hh, List.append_assoc]

/-- The oversize message is longer than the 4096-character transport limit. -/
theorem bigMsg_length_gt : 4096 < (notify_msg txDead "0xabc" bigName).length := by
  rw [bigMsg_decomp]
  simp only [List.length_append, List.length_replicate]
  omega

/-- What truncation actually delivers for the oversize message: the banner,
4059 of the name's characters, and the ellipsis — the link is gone. -/
theorem bigSent_eq :
    sent_msg txDead "0xabc" bigName =
      "🔔 <b>Transaksi Baru</b> 🔔\n👤 <b>".toList
        ++ (List.replicate 4059 'a' ++ "...".toList) := by
  have h1 : sent_msg txDead "0xabc" bigName =
      (notify_msg txDead "0xabc" bigName).take 4090 ++ "...".toList := by
    simp only [sent_msg]
    rw [if_pos bigMsg_length_gt]
  rw [h1, bigMsg_decomp]
  have hp : ("🔔 <b>Transaksi Baru</b> 🔔\n👤 <b>".toList).length = 31 := by decide
  rw [List.take_append_eq_append_take, List.take_of_length_le (by rw [hp]; omega), hp]
  rw [List.take_append_eq_append_take, List.take_replicate, List.length_replicate]
  norm_num

/-- C7 (counterexample): with a 4200-character display name the formatted
message exceeds the 4096-character limit, and the delivered (truncated)
message no longer contains the explorer link built from the transaction
hash — `msg[:4090] + "..."` cuts the tail of the message, which is exactly
where the link lives. -/
theorem truncation_cuts_link_counterexample :
    4096 < (notify_msg txDead "0xabc" bigName).length
    ∧ listContains (explorer_link txDead) (sent_msg txDead "0xabc" bigName)
        = false := by
  refine ⟨bigMsg_length_gt, ?_⟩
  rw [bigSent_eq]
  have hl : explorer_link txDead =
      'h' :: "ttps://soneium.blockscout.com/tx/0xdeadbeef".toList := by decide
  rw [hl]
  apply not_contains_of_head_not_mem
  intro hmem
  rcases List.mem_append.mp hmem with h1 | h23
  · revert h1
    decide
  · rcases List.mem_append.mp h23 with h2 | h3
    · exact absurd (List.mem_replicate.mp h2).2 (by decide)
    · revert h3
      decide

/-- C7 (amended): when the formatted message exceeds 4096 characters, the
dispatcher delivers its first 4090 characters with "..." appended — the body
and everything after it, the trailing explorer link included, are cut
together; the link is not protected. -/
theorem truncation_take_4090 (tx : Tx) (address name : String)
    (h : 4096 < (notify_msg tx address name).length) :
    sent_msg tx address name =
      (notify_msg tx address name).take 4090 ++ "...".toList := by
  simp only [sent_msg]
  rw [if_pos h]

/-- C7 (witness): the amended theorem at the oversize concrete message. -/
theorem truncation_take_4090_witness :
    4096 < (notify_msg txDead "0xabc" bigName).length
    ∧ sent_msg txDead "0xabc" bigName =
        (notify_msg txDead "0xabc" bigName).take 4090 ++ "...".toList :=
  ⟨bigMsg_length_gt, truncation_take_4090 txDead "0xabc" bigName bigMsg_length_gt⟩

end Bot
